import Mathlib

set_option linter.unusedVariables false

/-!
Shallow embedding of the snooker-stats integration core
(`custom_components/snooker_stats/api.py` and `coordinator.py`).

JSON payloads are modelled by `JValue`; Python dicts by association lists
with first-match lookup and overwrite-in-place insertion (the observable
semantics of Python's insertion-ordered dicts); Python's `int(...)`
conversion, truthiness, `or` chains and `str(...)` rendering are modelled
explicitly.  Network responses and persisted storage are inputs to the
modelled functions; an exception escaping a code path is an `Except.error`.
-/

/-- JSON-like Python values as they occur in API payloads. -/
inductive JValue where
  | null
  | bool (b : Bool)
  | int (n : Int)
  | str (s : String)
  | arr (xs : List JValue)
  | obj (kvs : List (String × JValue))

/-- A Python dict with string keys, as an insertion-ordered association list. -/
abbrev JObj := List (String × JValue)

/-- First-match lookup in an association list (Python `d[k]` / `d.get(k)`). -/
def alGet {α β : Type} [DecidableEq α] : List (α × β) → α → Option β
  | [], _ => none
  | (k, v) :: rest, key => if k = key then some v else alGet rest key

/-- Python dict assignment `d[k] = v`: overwrite in place, else append. -/
def alInsert {α β : Type} [DecidableEq α] : List (α × β) → α → β → List (α × β)
  | [], key, val => [(key, val)]
  | (k, v) :: rest, key, val =>
      if k = key then (key, val) :: rest else (k, v) :: alInsert rest key val

/-- Python `d.get(k)` on a JSON object (absent key yields `None`). -/
def jget (m : JObj) (k : String) : Option JValue := alGet m k

/-- Python `d.get(k)` collapsing absence to `None`. -/
def getd (m : JObj) (k : String) : JValue := (jget m k).getD .null

/-- Python truthiness of a JSON value. -/
def truthy : JValue → Bool
  | .null => false
  | .bool b => b
  | .int n => n != 0
  | .str s => s ≠ ""
  | .arr xs => !xs.isEmpty
  | .obj kvs => !kvs.isEmpty

/-- Python `a or b`. -/
def pyOr (a b : JValue) : JValue := if truthy a then a else b

/-- Decimal digits of a natural number, most significant first (fuel keeps the
recursion structural so terms reduce definitionally). -/
def natDecDigitsAux : Nat → Nat → List Char
  | 0, n => [Nat.digitChar n]
  | fuel + 1, n =>
      if n < 10 then [Nat.digitChar n]
      else natDecDigitsAux fuel (n / 10) ++ [Nat.digitChar (n % 10)]

/-- Decimal digits of a natural number, most significant first. -/
def natDecDigits (n : Nat) : List Char := natDecDigitsAux n n

/-- Decimal rendering of a natural number. -/
def natToDecStr (n : Nat) : String := String.mk (natDecDigits n)

/-- Decimal rendering of an integer (Python `str` on `int`). -/
def intToDecStr (i : Int) : String :=
  if i < 0 then "-" ++ natToDecStr i.natAbs else natToDecStr i.toNat

mutual

/-- Python `repr` of a JSON value (string values quoted). -/
def pyRepr : JValue → String
  | .null => "None"
  | .bool true => "True"
  | .bool false => "False"
  | .int n => intToDecStr n
  | .str s => "\x27" ++ s ++ "\x27"
  | .arr xs => "[" ++ pyReprSeq xs ++ "]"
  | .obj kvs => "\x7b" ++ pyReprPairs kvs ++ "\x7d"

/-- Comma-separated `repr`s of list members. -/
def pyReprSeq : List JValue → String
  | [] => ""
  | [x] => pyRepr x
  | x :: rest => pyRepr x ++ ", " ++ pyReprSeq rest

/-- Comma-separated `repr`s of dict items. -/
def pyReprPairs : List (String × JValue) → String
  | [] => ""
  | [(k, v)] => "\x27" ++ k ++ "\x27: " ++ pyRepr v
  | (k, v) :: rest => "\x27" ++ k ++ "\x27: " ++ pyRepr v ++ ", " ++ pyReprPairs rest

end

/-- Python `str(...)` of a JSON value. -/
def pyStr : JValue → String
  | .str s => s
  | v => pyRepr v

/-- Whether every character is an ASCII decimal digit. -/
def allDigits : List Char → Bool
  | [] => true
  | c :: cs => c.isDigit && allDigits cs

/-- Value of a digit string, most significant first. -/
def digitsVal (cs : List Char) : Nat :=
  cs.foldl (fun a c => a * 10 + (c.toNat - 48)) 0

/-- Python `str.strip()`: drop leading and trailing whitespace. -/
def pyStrip (s : String) : String :=
  String.mk
    ((((s.toList).dropWhile Char.isWhitespace).reverse.dropWhile Char.isWhitespace).reverse)

/-- Python `int(s)` on a string: strip, optional sign, decimal digits. -/
def parseIntStr (s : String) : Option Int :=
  match (pyStrip s).toList with
  | [] => none
  | '+' :: rest =>
      if rest.isEmpty then none
      else if allDigits rest then some (Int.ofNat (digitsVal rest)) else none
  | '-' :: rest =>
      if rest.isEmpty then none
      else if allDigits rest then some (-(Int.ofNat (digitsVal rest))) else none
  | cs => if allDigits cs then some (Int.ofNat (digitsVal cs)) else none

/-- Python `int(v)` on a JSON value: `some` on success, `none` where Python raises. -/
def pyInt : JValue → Option Int
  | .int n => some n
  | .bool b => some (if b then 1 else 0)
  | .str s => parseIntStr s
  | _ => none

/-- Errors escaping a modelled code path. -/
inductive PyErr where
  | valueKeys (keys : List String)
  | badValue
deriving DecidableEq

/-- `some` to `.ok`, `none` to a raised error (a failing `int(...)` call). -/
def ofOpt {α : Type} : Option α → Except PyErr α
  | some a => .ok a
  | none => .error .badValue

/-- A defensive integer-or-null field rendered back into a row. -/
def jOfOptInt : Option Int → JValue
  | some n => .int n
  | none => .null

/-! ## API client (`api.py`) -/

/-- `_first_dict`: a one-element-list-of-dict or bare dict becomes that dict,
anything else the empty dict. -/
def first_dict : JValue → JObj
  | .arr xs =>
      match xs with
      | .obj kvs :: _ => kvs
      | _ => []
  | .obj kvs => kvs
  | _ => []

/-- `_as_list`: a list keeps only its dict members, a bare dict is wrapped,
anything else yields the empty list. -/
def as_list : JValue → List JObj
  | .arr xs => xs.filterMap (fun x => match x with | .obj kvs => some kvs | _ => none)
  | .obj kvs => [kvs]
  | _ => []

/-- `get_current_season`: applies `_first_dict` to the fetched payload. -/
def get_current_season (payload : JValue) : JObj := first_dict payload

/-- `get_rankings`: applies `_as_list` to the fetched payload. -/
def get_rankings (payload : JValue) : List JObj := as_list payload

/-- `get_upcoming_matches`: returns the fetched payload unchanged
(no `_as_list` call in the source). -/
def get_upcoming_matches (payload : JValue) : JValue := payload

/-- `get_events_in_season`: returns the fetched payload unchanged
(no `_as_list` call in the source). -/
def get_events_in_season (payload : JValue) : JValue := payload

/-- `get_current_matches`: applies `_as_list` to the fetched payload. -/
def get_current_matches (payload : JValue) : List JObj := as_list payload

/-- `get_matches_of_event`: returns the fetched payload unchanged
(no `_as_list` call in the source). -/
def get_matches_of_event (payload : JValue) : JValue := payload

/-- `get_player`: applies `_first_dict` to the fetched payload. -/
def get_player (payload : JValue) : JObj := first_dict payload

/-- `paced_player_fetch`: fetch each id in order; the per-id network response
is the `fetcher` input; an exception aborts the whole call and discards the
partial mapping. -/
def paced_player_fetch (fetcher : Int → Except PyErr JObj) :
    List Int → Except PyErr (List (Int × JObj))
  | [] => .ok []
  | i :: rest =>
      match fetcher i with
      | .error e => .error e
      | .ok p =>
          match paced_player_fetch fetcher rest with
          | .error e => .error e
          | .ok out => .ok ((i, p) :: out)

/-! ## Player names and season extraction (`coordinator.py`) -/

/-- The loop in `_player_name_from_payload`: first key that is present with a
truthy value. -/
def player_name_first_key (p : JObj) : List String → Option JValue
  | [] => none
  | k :: ks =>
      match jget p k with
      | some v => if truthy v then some v else player_name_first_key p ks
      | none => player_name_first_key p ks

/-- `_player_name_from_payload`. -/
def player_name_from_payload (p : JObj) : String :=
  match player_name_first_key p ["Name", "FullName", "DisplayName"] with
  | some v => pyStr v
  | none =>
      let fn := pyStrip (pyStr ((jget p "FirstName").getD (.str "")))
      let ln := pyStrip (pyStr ((jget p "LastName").getD (.str "")))
      let name := pyStrip (fn ++ " " ++ ln)
      if name = "" then "Player " ++ pyStr ((jget p "ID").getD (.str "?")) else name

/-- Complement of `_extract_season`'s `raw in (None, "")` membership test. -/
def nonNullNonEmpty : JValue → Bool
  | .null => false
  | .str "" => false
  | _ => true

/-- The candidate-key loop of `_extract_season`; `nonNullNonEmpty raw` is the
negation of the source's `raw in (None, "")` skip test. -/
def extract_season_go (payload : JObj) : List String → Except PyErr Int
  | [] => .error (.valueKeys (payload.map Prod.fst))
  | k :: ks =>
      let raw := (jget payload k).getD .null
      if nonNullNonEmpty raw then
        match pyInt raw with
        | some n => .ok n
        | none => extract_season_go payload ks
      else extract_season_go payload ks

/-- `_extract_season`: candidate keys in fixed order; the raised `ValueError`
carries the payload's keys. -/
def extract_season (payload : JObj) : Except PyErr Int :=
  extract_season_go payload ["Season", "ID", "CurrentSeason", "SeasonID"]

/-- Modelled from the spec (C3 refinement reference): first candidate key
present with a non-empty, integer-parseable value wins; otherwise an error
naming the payload's keys. -/
def extract_season_spec_go (payload : JObj) : List String → Except PyErr Int
  | [] => .error (.valueKeys (payload.map Prod.fst))
  | k :: ks =>
      match jget payload k with
      | some v =>
          if nonNullNonEmpty v then
            match pyInt v with
            | some n => .ok n
            | none => extract_season_spec_go payload ks
          else extract_season_spec_go payload ks
      | none => extract_season_spec_go payload ks

/-- Modelled from the spec (C3 refinement reference), full candidate order. -/
def extract_season_spec (payload : JObj) : Except PyErr Int :=
  extract_season_spec_go payload ["Season", "ID", "CurrentSeason", "SeasonID"]


/-! ## Player cache (`coordinator.py`) -/

/-- `PlayerCache`: id-to-name mapping plus last full-refresh stamp.  The
stored string timestamp is parsed by the host's `dt_util.parse_datetime`,
which is outside this repository; the field holds the parse outcome in
seconds (`none` = absent or falsy, `some none` = unparseable string,
`some (some t)` = parsed instant). -/
structure PlayerCacheM where
  players : List (Int × String)
  last_refreshed : Option (Option Int)

/-- Merge a fetched `id -> payload` mapping into the cache
(the update loops after both `paced_player_fetch` call sites and in the
monthly refresh). -/
def apply_players (cache : List (Int × String)) (fetched : List (Int × JObj)) :
    List (Int × String) :=
  fetched.foldl (fun m pv => alInsert m pv.1 (player_name_from_payload pv.2)) cache

/-- `load_player_cache`: parse stored string keys back to ints, stringify
values; `int(k)` may raise, which aborts the load. -/
def load_players_go (acc : List (Int × String)) :
    List (String × JValue) → Except PyErr (List (Int × String))
  | [] => .ok acc
  | kv :: rest =>
      match parseIntStr kv.1 with
      | none => .error .badValue
      | some n => load_players_go (alInsert acc n (pyStr kv.2)) rest

/-- `load_player_cache` body, continued. -/
def load_player_cache (data : JObj) : Except PyErr (List (Int × String)) :=
  match (jget data "players").getD (.obj []) with
  | .obj kvs => load_players_go [] kvs
  | _ => .error .badValue

/-! ## Rankings poller -/

/-- The ranking-row name rule `players.get(pid)` then `name or f"#..."`:
cached value when non-empty, else the `#id` placeholder. -/
def rank_name (cache : List (Int × String)) (pid : Int) : String :=
  match alGet cache pid with
  | some s => if s = "" then "#" ++ intToDecStr pid else s
  | none => "#" ++ intToDecStr pid

/-- One row of `RankingsCoordinator._async_update_data.decorate`, continued:
`int(r.get("PlayerID", r.get("ID", 0)) or 0)` then the read-only lookup. -/
def decorate_row (cache : List (Int × String)) (r : JObj) : Except PyErr JObj :=
  let base := (jget r "PlayerID").getD ((jget r "ID").getD (.int 0))
  match pyInt (pyOr base (.int 0)) with
  | none => .error .badValue
  | some pid => .ok (alInsert r "PlayerName" (.str (rank_name cache pid)))

/-- The row loop of `decorate`. -/
def decorate_go (cache : List (Int × String)) : List JObj → Except PyErr (List JObj)
  | [] => .ok []
  | r :: rs =>
      match decorate_row cache r with
      | .error e => .error e
      | .ok r1 =>
          match decorate_go cache rs with
          | .error e => .error e
          | .ok rest => .ok (r1 :: rest)

/-- `decorate`: first 10 rows in provider order. -/
def decorate (cache : List (Int × String)) (rows : List JObj) :
    Except PyErr (List JObj) :=
  decorate_go cache (rows.take 10)

/-- The body of `RankingsCoordinator._async_update_data` after the fetches:
decorate both tables; the cache is only read. -/
def rankings_update (cache : List (Int × String)) (season : Int)
    (money one_year : List JObj) :
    Except PyErr ((List (Int × String)) × Int × List JObj × List JObj) :=
  match decorate cache money with
  | .error e => .error e
  | .ok m =>
      match decorate cache one_year with
      | .error e => .error e
      | .ok y => .ok (cache, season, m, y)

/-! ## Upcoming-matches poller -/

/-- The local `as_int` of `UpcomingMatchesCoordinator`: `int(pid)` with every
exception mapped to `None`. -/
def as_int_up (v : JValue) : Option Int := pyInt v

/-- Tag each tour's matches with their tour code and concatenate. -/
def up_all_matches (tourMatches : List (String × List JObj)) : List JObj :=
  (tourMatches.map (fun tm => tm.2.map (fun m => alInsert m "Tour" (.str tm.1)))).flatten

/-- Normalization of one raw upcoming match; `none` when no truthy schedule
date is found (the match is dropped). -/
def up_normalize_one (m : JObj) : Option JObj :=
  let p1 := pyOr (getd m "Player1ID") (pyOr (getd m "P1") (getd m "Player1"))
  let p2 := pyOr (getd m "Player2ID") (pyOr (getd m "P2") (getd m "Player2"))
  let scheduled := pyOr (getd m "ScheduledDate") (pyOr (getd m "StartDate") (getd m "Date"))
  if truthy scheduled then
    some [("Tour", .str (pyStr (pyOr (getd m "Tour") (.str "")))),
          ("EventID",
            jOfOptInt (as_int_up (pyOr (getd m "EventID") (pyOr (getd m "Event") (getd m "EID"))))),
          ("ScheduledDate", .str (pyStr scheduled)),
          ("Player1ID", jOfOptInt (as_int_up p1)),
          ("Player2ID", jOfOptInt (as_int_up p2))]
  else none

/-- Insert into a sorted duplicate-free list of ints (models accumulating a
Python `set` and reading it back with `sorted(...)`). -/
def insSortedUnique (x : Int) : List Int → List Int
  | [] => [x]
  | y :: ys => if x < y then x :: y :: ys else if x = y then y :: ys else y :: insSortedUnique x ys

/-- Sorted deduplication of a list of ints. -/
def sortedDedupInts (l : List Int) : List Int := l.foldl (fun acc x => insSortedUnique x acc) []

/-- Player ids referenced by the normalized rows (both player columns,
`None` entries skipped). -/
def up_collect_pids (rows : List JObj) : List Int :=
  rows.foldr (fun row acc =>
    (match jget row "Player1ID" with | some (.int n) => [n] | _ => []) ++
    (match jget row "Player2ID" with | some (.int n) => [n] | _ => []) ++ acc) []

/-- `missing_player_ids` of the upcoming poller: referenced ids absent from
the cache, as the sorted set handed to `paced_player_fetch`. -/
def up_missing_ids (cache : List (Int × String)) (rows : List JObj) : List Int :=
  sortedDedupInts ((up_collect_pids rows).filter (fun pid => (alGet cache pid).isNone))

/-- Sort key of the upcoming poller: `str(x.get("ScheduledDate") or "")`. -/
def up_sort_key (row : JObj) : String :=
  pyStr (pyOr (getd row "ScheduledDate") (.str ""))

/-- Python string comparison (by code point), non-strict, on char lists. -/
def strListLe : List Char → List Char → Bool
  | [], _ => true
  | _ :: _, [] => false
  | a :: as, b :: bs =>
      if a.toNat < b.toNat then true
      else if b.toNat < a.toNat then false
      else strListLe as bs

/-- Python `a <= b` on strings. -/
def strLe (a b : String) : Bool := strListLe a.toList b.toList

theorem strListLe_total : ∀ xs ys, strListLe xs ys = true ∨ strListLe ys xs = true := by
  intro xs
  induction xs with
  | nil => intro ys; exact Or.inl rfl
  | cons a as ih =>
      intro ys
      cases ys with
      | nil => exact Or.inr rfl
      | cons b bs =>
          simp only [strListLe]
          rcases Nat.lt_trichotomy a.toNat b.toNat with h | h | h
          · left; simp [h]
          · have h2 : ¬ a.toNat < b.toNat := by omega
            have h3 : ¬ b.toNat < a.toNat := by omega
            rcases ih bs with h4 | h4
            · left; simp [h2, h3, h4, h]
            · right; simp [h2, h3, h4, h]
          · right; simp [h, Nat.lt_asymm h]

theorem strListLe_trans :
    ∀ xs ys zs, strListLe xs ys = true → strListLe ys zs = true →
      strListLe xs zs = true := by
  intro xs
  induction xs with
  | nil => intro ys zs h1 h2; rfl
  | cons a as ih =>
      intro ys zs h1 h2
      cases ys with
      | nil => simp [strListLe] at h1
      | cons b bs =>
          cases zs with
          | nil => simp [strListLe] at h2
          | cons c cs =>
              simp only [strListLe] at h1 h2 ⊢
              rcases Nat.lt_trichotomy a.toNat b.toNat with hab | hab | hab
              · rcases Nat.lt_trichotomy b.toNat c.toNat with hbc | hbc | hbc
                · simp [show a.toNat < c.toNat by omega]
                · simp [show a.toNat < c.toNat by omega]
                · rw [if_neg (by omega), if_pos (by omega)] at h2
                  simp at h2
              · rcases Nat.lt_trichotomy b.toNat c.toNat with hbc | hbc | hbc
                · simp [show a.toNat < c.toNat by omega]
                · rw [if_neg (by omega), if_neg (by omega)] at h1
                  rw [if_neg (by omega), if_neg (by omega)] at h2
                  rw [if_neg (by omega), if_neg (by omega)]
                  exact ih bs cs h1 h2
                · rw [if_neg (by omega), if_pos (by omega)] at h2
                  simp at h2
              · rw [if_neg (by omega), if_pos (by omega)] at h1
                simp at h1

theorem strListLe_antisymm :
    ∀ xs ys, strListLe xs ys = true → strListLe ys xs = true → xs = ys := by
  intro xs
  induction xs with
  | nil =>
      intro ys h1 h2
      cases ys with
      | nil => rfl
      | cons b bs => simp [strListLe] at h2
  | cons a as ih =>
      intro ys h1 h2
      cases ys with
      | nil => simp [strListLe] at h1
      | cons b bs =>
          simp only [strListLe] at h1 h2
          rcases Nat.lt_trichotomy a.toNat b.toNat with hab | hab | hab
          · simp [hab, Nat.lt_asymm hab] at h2
          · have h3 : ¬ a.toNat < b.toNat := by omega
            have h4 : ¬ b.toNat < a.toNat := by omega
            simp only [h3, h4, if_false] at h1 h2
            have hc : a = b := by
              rw [← Char.ofNat_toNat a, ← Char.ofNat_toNat b, hab]
            rw [hc, ih bs h1 h2]
          · simp [hab, Nat.lt_asymm hab] at h1

theorem strLe_total (a b : String) : strLe a b = true ∨ strLe b a = true :=
  strListLe_total a.toList b.toList

theorem strLe_trans {a b c : String} (h1 : strLe a b = true) (h2 : strLe b c = true) :
    strLe a c = true :=
  strListLe_trans a.toList b.toList c.toList h1 h2

theorem strLe_antisymm {a b : String} (h1 : strLe a b = true) (h2 : strLe b a = true) :
    a = b := by
  have h3 := strListLe_antisymm a.toList b.toList h1 h2
  exact String.ext h3

/-- Comparison used by the upcoming poller's stable sort. -/
def upLe (a b : JObj) : Prop := strLe (up_sort_key a) (up_sort_key b) = true

instance : DecidableRel upLe := fun a b => inferInstanceAs (Decidable (_ = true))

instance : IsTotal JObj upLe := ⟨fun a b => strLe_total (up_sort_key a) (up_sort_key b)⟩

instance : IsTrans JObj upLe := ⟨fun _ _ _ h h2 => strLe_trans h h2⟩

/-- `list.sort(key=...)` is a stable sort by the key. -/
def up_sort (rows : List JObj) : List JObj := List.insertionSort upLe rows

/-- A poller's published `{count, matches}` payload. -/
structure PollResult where
  count : Nat
  match_list : List JObj

/-- `UpcomingMatchesCoordinator._async_update_data` after the per-tour
fetches: normalize and drop, backfill the cache for missing ids (failures
caught locally; a save failure after a successful fetch still keeps the
in-memory update), sort, publish.  Returns the cache state and the result. -/
def upcoming_update (cache : List (Int × String)) (tourMatches : List (String × List JObj))
    (fetcher : Int → Except PyErr JObj) :
    (List (Int × String)) × PollResult :=
  let decorated := (up_all_matches tourMatches).filterMap up_normalize_one
  let missing := up_missing_ids cache decorated
  let cache1 :=
    if missing.isEmpty then cache
    else
      match paced_player_fetch fetcher missing with
      | .ok fetched => apply_players cache fetched
      | .error _ => cache
  let sorted := up_sort decorated
  (cache1, { count := sorted.length, match_list := sorted })

/-! ## Events-in-season poller -/

/-- Candidate-field extraction for an event id:
`raw.get("ID") or raw.get("EventID") or raw.get("EID")`, skip on `None`,
then `int(...)` with parse failures dropped. -/
def event_id_of (raw : JObj) : Option Int :=
  match pyOr (getd raw "ID") (pyOr (getd raw "EventID") (getd raw "EID")) with
  | .null => none
  | v => pyInt v

/-- The normalized event payload built for a resolved id. -/
def normalize_event (raw : JObj) (i : Int) : JObj :=
  [("ID", .int i),
   ("Name", .str (pyStr (pyOr (getd raw "Name") (pyOr (getd raw "EventName") (.str ""))))),
   ("City", .str (pyStr (pyOr (getd raw "City") (.str "")))),
   ("Venue", .str (pyStr (pyOr (getd raw "Venue") (.str "")))),
   ("Type", .str (pyStr (pyOr (getd raw "Type") (.str "")))),
   ("StartDate", .str (pyStr (pyOr (getd raw "StartDate") (pyOr (getd raw "Start") (.str ""))))),
   ("EndDate", .str (pyStr (pyOr (getd raw "EndDate") (pyOr (getd raw "End") (.str "")))))]

/-- One iteration of the `events_by_id` accumulation loop. -/
def events_by_id_step (m : List (Int × JObj)) (raw : JObj) : List (Int × JObj) :=
  match event_id_of raw with
  | none => m
  | some i => alInsert m i (normalize_event raw i)

/-- The `events_by_id` accumulation loop (last write wins per id). -/
def events_by_id_of (raws : List JObj) : List (Int × JObj) :=
  raws.foldl events_by_id_step []

/-- Sort key of the events list: `x["ID"]`. -/
def event_sort_key (e : JObj) : Int :=
  match jget e "ID" with | some (.int n) => n | _ => 0

/-- Comparison used to sort the events list ascending by id. -/
def evLe (a b : JObj) : Prop := event_sort_key a ≤ event_sort_key b

instance : DecidableRel evLe := fun a b => inferInstanceAs (Decidable (_ ≤ _))

instance : IsTotal JObj evLe := ⟨fun a b => le_total (event_sort_key a) (event_sort_key b)⟩

instance : IsTrans JObj evLe := ⟨fun _ _ _ h h' => le_trans h h'⟩

/-- `sorted(events_by_id.values(), key=lambda x: x["ID"])`. -/
def events_list_of (m : List (Int × JObj)) : List JObj :=
  List.insertionSort evLe (m.map Prod.snd)

/-- `EventsInSeasonCoordinator._async_update_data` after the fetches:
build the id-keyed map and the sorted list, publish
`{season, count, events, events_by_id}`. -/
def events_update (season : Int) (raws : List JObj) :
    Int × Nat × List JObj × List (Int × JObj) :=
  let m := events_by_id_of raws
  let evs := events_list_of m
  (season, evs.length, evs, m)

/-! ## Match-scores poller -/

/-- The local `as_int` of `MatchScoresCoordinator`: `None`/`""` and parse
failures all map to `None`. -/
def as_int_ms : JValue → Option Int
  | .null => none
  | .str "" => none
  | v => pyInt v

/-- `p1_id or -1` / `event_id or -1`: a `None` or zero id falls back to -1. -/
def keyOrNeg1 : Option Int → Int
  | some n => if n = 0 then -1 else n
  | none => -1

/-- First-pass name resolution of a match-scores row:
`players.get(p1_id or -1, f"#..." if p1_id else "TBD")`. -/
def ms_name (cache : List (Int × String)) (o : Option Int) : String :=
  let dflt :=
    match o with
    | some n => if n = 0 then "TBD" else "#" ++ intToDecStr n
    | none => "TBD"
  (alGet cache (keyOrNeg1 o)).getD dflt

/-- One row of `MatchScoresCoordinator._async_update_data`: defensive
`as_int` for the player and event ids, strict `int(... or 0)` for
`MatchID`, `Score1`, `Score2`, `Status` (these raise on truthy unparseable
values), event-metadata join with empty-string defaults. -/
def ms_row (events_map : List (Int × JObj)) (cache : List (Int × String)) (m : JObj) :
    Except PyErr JObj :=
  let p1 := as_int_ms (getd m "Player1ID")
  let p2 := as_int_ms (getd m "Player2ID")
  let eid := as_int_ms (getd m "EventID")
  let event := (alGet events_map (keyOrNeg1 eid)).getD []
  match pyInt (pyOr (getd m "ID") (.int 0)),
      pyInt (pyOr (getd m "Score1") (.int 0)),
      pyInt (pyOr (getd m "Score2") (.int 0)),
      pyInt (pyOr (getd m "Status") (.int 0)) with
  | some mid, some s1, some s2, some st =>
    .ok [("MatchID", .int mid),
       ("EventID", jOfOptInt eid),
       ("EventName", pyOr (getd event "Name") (.str "")),
       ("EventType", pyOr (getd event "Type") (.str "")),
       ("EventCity", pyOr (getd event "City") (.str "")),
       ("Player1ID", jOfOptInt p1),
       ("Player1Name", .str (ms_name cache p1)),
       ("Score1", .int s1),
       ("Player2ID", jOfOptInt p2),
       ("Player2Name", .str (ms_name cache p2)),
       ("Score2", .int s2),
       ("Status", .int st),
       ("Unfinished", .bool (truthy (getd m "Unfinished"))),
       ("ScheduledDate", .str (pyStr (pyOr (getd m "ScheduledDate") (.str "")))),
       ("StartDate", .str (pyStr (pyOr (getd m "StartDate") (.str "")))),
       ("EndDate", .str (pyStr (pyOr (getd m "EndDate") (.str ""))))]
  | _, _, _, _ => .error .badValue

/-- Ids collected into `missing_player_ids` by one raw match
(`if p1_id and p1_id not in players`). -/
def ms_missing_one (cache : List (Int × String)) (o : Option Int) : List Int :=
  match o with
  | some n => if n ≠ 0 ∧ (alGet cache n).isNone then [n] else []
  | none => []

/-- `missing_player_ids` of the match-scores poller, as the sorted set
handed to `paced_player_fetch`. -/
def ms_missing_ids (cache : List (Int × String)) (raws : List JObj) : List Int :=
  sortedDedupInts (raws.foldr (fun m acc =>
    ms_missing_one cache (as_int_ms (getd m "Player1ID")) ++
    ms_missing_one cache (as_int_ms (getd m "Player2ID")) ++ acc) [])

/-- The second-pass name overwrite after a successful backfill:
`players.get(pid, current)` for each truthy player id of the row. -/
def ms_reresolve (cache : List (Int × String)) (row : JObj) : JObj :=
  let row1 :=
    match jget row "Player1ID" with
    | some (.int n) =>
        if n ≠ 0 then
          match alGet cache n with
          | some s => alInsert row "Player1Name" (.str s)
          | none => row
        else row
    | _ => row
  match jget row1 "Player2ID" with
  | some (.int n) =>
      if n ≠ 0 then
        match alGet cache n with
        | some s => alInsert row1 "Player2Name" (.str s)
        | none => row1
      else row1
  | _ => row1

/-- Sort key of the match-scores poller:
`(x.get("ScheduledDate") or "", x.get("MatchID") or 0)`. -/
def ms_sort_key (row : JObj) : String × Int :=
  (pyStr (pyOr (getd row "ScheduledDate") (.str "")),
   match pyOr (getd row "MatchID") (.int 0) with | .int n => n | _ => 0)

/-- Python `<=` on a `(string, int)` pair (the match-scores sort key). -/
def msKeyLeB (a b : String × Int) : Bool :=
  if a.1 = b.1 then decide (a.2 ≤ b.2) else strLe a.1 b.1

theorem msKeyLeB_total (a b : String × Int) : msKeyLeB a b = true ∨ msKeyLeB b a = true := by
  unfold msKeyLeB
  by_cases h : a.1 = b.1
  · simp [h]; omega
  · have h2 : ¬ b.1 = a.1 := fun hc => h hc.symm
    simp only [h, h2, if_false]
    exact strLe_total a.1 b.1

theorem msKeyLeB_trans {a b c : String × Int} (h1 : msKeyLeB a b = true)
    (h2 : msKeyLeB b c = true) : msKeyLeB a c = true := by
  unfold msKeyLeB at h1 h2 ⊢
  by_cases hab : a.1 = b.1 <;> by_cases hbc : b.1 = c.1
  · rw [if_pos hab] at h1
    rw [if_pos hbc] at h2
    rw [if_pos (hab.trans hbc)]
    simp at h1 h2 ⊢
    omega
  · rw [if_pos hab] at h1
    rw [if_neg hbc] at h2
    have hac : ¬ a.1 = c.1 := fun hc => hbc (hab.symm.trans hc)
    rw [if_neg hac, hab]
    exact h2
  · rw [if_neg hab] at h1
    rw [if_pos hbc] at h2
    have hac : ¬ a.1 = c.1 := fun hc => hab (hc.trans hbc.symm)
    rw [if_neg hac, ← hbc]
    exact h1
  · rw [if_neg hab] at h1
    rw [if_neg hbc] at h2
    by_cases hac : a.1 = c.1
    · exfalso
      have h3 : strLe c.1 b.1 = true := by rw [← hac]; exact h1
      exact hbc (strLe_antisymm h2 h3)
    · rw [if_neg hac]
      exact strLe_trans h1 h2

/-- Lexicographic comparison on the match-scores sort key. -/
def msLe (a b : JObj) : Prop := msKeyLeB (ms_sort_key a) (ms_sort_key b) = true

instance : DecidableRel msLe := fun a b => inferInstanceAs (Decidable (_ = true))

instance : IsTotal JObj msLe := ⟨fun a b => msKeyLeB_total (ms_sort_key a) (ms_sort_key b)⟩

instance : IsTrans JObj msLe := ⟨fun _ _ _ h h2 => msKeyLeB_trans h h2⟩

/-- The match-scores stable sort. -/
def ms_sort (rows : List JObj) : List JObj := List.insertionSort msLe rows

/-- The row loop of `MatchScoresCoordinator._async_update_data`. -/
def ms_rows_go (events_map : List (Int × JObj)) (cache : List (Int × String)) :
    List JObj → Except PyErr (List JObj)
  | [] => .ok []
  | m :: rest =>
      match ms_row events_map cache m with
      | .error e => .error e
      | .ok row =>
          match ms_rows_go events_map cache rest with
          | .error e => .error e
          | .ok rows => .ok (row :: rows)

/-- `MatchScoresCoordinator._async_update_data` after the per-tour fetches:
build rows (a strict `int(...)` failure fails the whole cycle), backfill
missing player names (failures caught locally; the re-resolve pass runs
only when both the fetch and the save succeed), sort, publish. -/
def ms_update (cache : List (Int × String)) (events_map : List (Int × JObj))
    (raws : List JObj) (fetcher : Int → Except PyErr JObj) (saveOk : Bool) :
    (List (Int × String)) × Except PyErr PollResult :=
  match ms_rows_go events_map cache raws with
  | .error e => (cache, .error e)
  | .ok rows =>
      let missing := ms_missing_ids cache raws
      if missing.isEmpty then
        (cache, .ok { count := (ms_sort rows).length, match_list := ms_sort rows })
      else
        match paced_player_fetch fetcher missing with
        | .error _ =>
            (cache, .ok { count := (ms_sort rows).length, match_list := ms_sort rows })
        | .ok fetched =>
            let cache1 := apply_players cache fetched
            if saveOk then
              let rows1 := rows.map (ms_reresolve cache1)
              (cache1, .ok { count := (ms_sort rows1).length, match_list := ms_sort rows1 })
            else
              (cache1, .ok { count := (ms_sort rows).length, match_list := ms_sort rows })

/-! ## Monthly player-cache refresh -/

/-- Seconds in the 30-day threshold (`timedelta(days=MONTHLY_REFRESH_DAYS)`). -/
def monthlyRefreshSeconds : Int := 30 * 86400

/-- The due-check of `maybe_refresh_player_cache_monthly`: skip only when the
stamp is present, parseable and strictly younger than 30 days. -/
def monthly_due (now : Int) (last : Option (Option Int)) : Bool :=
  match last with
  | none => true
  | some none => true
  | some (some t) => !(decide (now - t < monthlyRefreshSeconds))

/-- The top-100 id collection of the monthly refresh:
`r.get("PlayerID", r.get("ID"))`, skip `None`, strict `int(...)`. -/
def top100_go : List JObj → Except PyErr (List Int)
  | [] => .ok []
  | r :: rs =>
      match (jget r "PlayerID").getD ((jget r "ID").getD .null) with
      | .null => top100_go rs
      | v =>
          match pyInt v with
          | some n => (top100_go rs).map (fun l => n :: l)
          | none => .error .badValue

/-- Player ids of the first 100 ranking rows. -/
def top100_ids (rankings : List JObj) : Except PyErr (List Int) :=
  top100_go (rankings.take 100)

/-- `maybe_refresh_player_cache_monthly`: when due, resolve the season,
collect the top-100 ids, paced-fetch them (5 s delay), overwrite the cache
entries, stamp `last_refreshed`, persist.  Returns the cache and whether the
refresh ran; an error is an exception escaping to the caller. -/
def maybe_refresh_player_cache_monthly (now : Int) (cache : PlayerCacheM)
    (season_payload : JObj) (rankings : List JObj)
    (fetcher : Int → Except PyErr JObj) : Except PyErr (PlayerCacheM × Bool) :=
  if monthly_due now cache.last_refreshed then
    match extract_season season_payload with
    | .error e => .error e
    | .ok _ =>
        match top100_ids rankings with
        | .error e => .error e
        | .ok ids =>
            match paced_player_fetch fetcher ids with
            | .error e => .error e
            | .ok fetched =>
                .ok ({ players := apply_players cache.players fetched,
                       last_refreshed := some (some now) }, true)
  else .ok (cache, false)

/-! ## Helper lemmas -/

theorem natDecDigitsAux_ne_nil (fuel n : Nat) : natDecDigitsAux fuel n ≠ [] := by
  cases fuel with
  | zero => simp [natDecDigitsAux]
  | succ f => simp [natDecDigitsAux]; split <;> simp

theorem natToDecStr_ne_empty (n : Nat) : natToDecStr n ≠ "" := by
  unfold natToDecStr natDecDigits
  intro h
  have h2 := congrArg String.data h
  simp at h2
  exact natDecDigitsAux_ne_nil n n h2

theorem intToDecStr_ne_empty (i : Int) : intToDecStr i ≠ "" := by
  unfold intToDecStr
  split
  · intro h
    have h2 := congrArg String.data h
    simp at h2
  · exact natToDecStr_ne_empty _

theorem pyStr_ne_empty_of_truthy (v : JValue) (h : truthy v = true) : pyStr v ≠ "" := by
  cases v with
  | null => simp [truthy] at h
  | bool b =>
      cases b with
      | false => simp [truthy] at h
      | true => intro hc; simp [pyStr, pyRepr] at hc
  | int n => exact intToDecStr_ne_empty n
  | str s => simpa [truthy, pyStr] using h
  | arr xs =>
      intro hc
      have h2 := congrArg String.data hc
      simp [pyStr, pyRepr] at h2
  | obj kvs =>
      intro hc
      have h2 := congrArg String.data hc
      simp [pyStr, pyRepr] at h2

theorem player_name_first_key_truthy (p : JObj) :
    ∀ ks v, player_name_first_key p ks = some v → truthy v = true := by
  intro ks
  induction ks with
  | nil => intro v h; simp [player_name_first_key] at h
  | cons k rest ih =>
      intro v h
      simp only [player_name_first_key] at h
      cases hg : jget p k with
      | none => rw [hg] at h; exact ih v h
      | some w =>
          rw [hg] at h
          dsimp only at h
          by_cases ht : truthy w = true
          · rw [if_pos ht] at h; cases h; exact ht
          · rw [if_neg ht] at h; exact ih v h

theorem player_name_from_payload_ne_empty (p : JObj) :
    player_name_from_payload p ≠ "" := by
  unfold player_name_from_payload
  cases hk : player_name_first_key p ["Name", "FullName", "DisplayName"] with
  | some v => exact pyStr_ne_empty_of_truthy v (player_name_first_key_truthy p _ v hk)
  | none =>
      simp only []
      split
      · intro hc
        have h2 := congrArg String.data hc
        simp at h2
      · assumption

theorem alGet_alInsert_self {α β : Type} [DecidableEq α]
    (m : List (α × β)) (k : α) (v : β) : alGet (alInsert m k v) k = some v := by
  induction m with
  | nil => simp [alInsert, alGet]
  | cons kv rest ih =>
      by_cases h : kv.1 = k
      · simp [alInsert, h, alGet]
      · simp [alInsert, h, alGet, ih]

theorem alGet_alInsert_ne {α β : Type} [DecidableEq α]
    (m : List (α × β)) (k k' : α) (v : β) (h : k ≠ k') :
    alGet (alInsert m k v) k' = alGet m k' := by
  induction m with
  | nil => simp [alInsert, alGet, h]
  | cons kv rest ih =>
      by_cases hk : kv.1 = k
      · simp [alInsert, hk, alGet, h]
      · simp [alInsert, hk, alGet, ih]

theorem mem_alInsert {α β : Type} [DecidableEq α]
    (m : List (α × β)) (k : α) (v : β) :
    ∀ kv ∈ alInsert m k v, kv = (k, v) ∨ kv ∈ m := by
  induction m with
  | nil => intro kv h; simp [alInsert] at h; exact Or.inl h
  | cons hd rest ih =>
      intro kv h
      by_cases hk : hd.1 = k
      · simp [alInsert, hk] at h
        rcases h with h | h
        · exact Or.inl h
        · exact Or.inr (List.mem_cons_of_mem _ h)
      · simp [alInsert, hk] at h
        rcases h with h | h
        · exact Or.inr (by simp [h])
        · rcases ih kv h with h2 | h2
          · exact Or.inl h2
          · exact Or.inr (List.mem_cons_of_mem _ h2)

/-- The player-cache invariant of the spec: positive integer keys, non-empty
display names. -/
def cacheInv (m : List (Int × String)) : Prop := ∀ kv ∈ m, 0 < kv.1 ∧ kv.2 ≠ ""

theorem cacheInv_alInsert (m : List (Int × String)) (k : Int) (v : String)
    (hm : cacheInv m) (hk : 0 < k) (hv : v ≠ "") : cacheInv (alInsert m k v) := by
  intro kv hkv
  rcases mem_alInsert m k v kv hkv with h | h
  · rw [h]; exact ⟨hk, hv⟩
  · exact hm kv h

theorem apply_players_inv (fetched : List (Int × JObj)) :
    ∀ cache, cacheInv cache → (∀ pv ∈ fetched, 0 < pv.1) →
      cacheInv (apply_players cache fetched) := by
  induction fetched with
  | nil => intro cache hc _; simpa [apply_players] using hc
  | cons pv rest ih =>
      intro cache hc hpos
      simp only [apply_players, List.foldl_cons] at *
      exact ih (alInsert cache pv.1 (player_name_from_payload pv.2))
        (cacheInv_alInsert _ _ _ hc (hpos pv (by simp))
          (player_name_from_payload_ne_empty pv.2))
        (fun q hq => hpos q (List.mem_cons_of_mem _ hq))

theorem paced_player_fetch_keys (fetcher : Int → Except PyErr JObj) :
    ∀ ids fetched, paced_player_fetch fetcher ids = .ok fetched →
      fetched.map Prod.fst = ids := by
  intro ids
  induction ids with
  | nil => intro fetched h; cases h; rfl
  | cons i rest ih =>
      intro fetched h
      simp only [paced_player_fetch] at h
      cases hf : fetcher i with
      | error e => rw [hf] at h; exact absurd h (by simp [Except.bind])
      | ok p =>
          rw [hf] at h
          cases hr : paced_player_fetch fetcher rest with
          | error e => rw [hr] at h; exact absurd h (by simp [Except.bind])
          | ok out =>
              rw [hr] at h
              simp [Except.bind] at h
              cases h
              simp [ih out hr]

theorem mem_insSortedUnique (x : Int) :
    ∀ l y, y ∈ insSortedUnique x l → y = x ∨ y ∈ l := by
  intro l
  induction l with
  | nil => intro y h; simp [insSortedUnique] at h; exact Or.inl h
  | cons z rest ih =>
      intro y h
      simp only [insSortedUnique] at h
      split at h
      · rcases List.mem_cons.mp h with h2 | h2
        · exact Or.inl h2
        · exact Or.inr h2
      · split at h
        · exact Or.inr h
        · rcases List.mem_cons.mp h with h2 | h2
          · exact Or.inr (by simp [h2])
          · rcases ih y h2 with h3 | h3
            · exact Or.inl h3
            · exact Or.inr (List.mem_cons_of_mem _ h3)

theorem mem_sortedDedup_aux :
    ∀ (l acc : List Int) (y : Int),
      y ∈ l.foldl (fun acc x => insSortedUnique x acc) acc → y ∈ acc ∨ y ∈ l := by
  intro l
  induction l with
  | nil => intro acc y h; exact Or.inl h
  | cons x rest ih =>
      intro acc y h
      simp only [List.foldl_cons] at h
      rcases ih (insSortedUnique x acc) y h with h2 | h2
      · rcases mem_insSortedUnique x acc y h2 with h3 | h3
        · exact Or.inr (by simp [h3])
        · exact Or.inl h3
      · exact Or.inr (List.mem_cons_of_mem _ h2)

theorem mem_sortedDedupInts (l : List Int) (y : Int) :
    y ∈ sortedDedupInts l → y ∈ l := by
  intro h
  rcases mem_sortedDedup_aux l [] y h with h2 | h2
  · simp at h2
  · exact h2

theorem extract_season_go_eq_spec (payload : JObj) :
    ∀ ks, extract_season_go payload ks = extract_season_spec_go payload ks := by
  intro ks
  induction ks with
  | nil => rfl
  | cons k rest ih =>
      simp only [extract_season_go, extract_season_spec_go]
      cases hg : jget payload k with
      | none => simp [Option.getD, nonNullNonEmpty, ih]
      | some v => simp [Option.getD, ih]

theorem extract_season_go_error (payload : JObj) :
    ∀ ks e, extract_season_go payload ks = .error e →
      e = .valueKeys (payload.map Prod.fst) := by
  intro ks
  induction ks with
  | nil => intro e h; simpa [extract_season_go] using h.symm
  | cons k rest ih =>
      intro e h
      simp only [extract_season_go] at h
      split at h
      · split at h
        · cases h
        · exact ih e h
      · exact ih e h

/-! ## Claim theorems -/

/-- C1 (code evidence): the singular-resource normalizer and the two
list-resource methods that do call `_as_list` behave as specified, but
`get_upcoming_matches`, `get_events_in_season` and `get_matches_of_event`
return the raw payload unnormalized: a bare object stays an object (it is
not wrapped into a one-element list) and non-object list members are kept. -/
theorem c1_list_methods_not_normalized :
    get_current_season (.arr [.obj [("ID", .int 1)]]) = [("ID", .int 1)] ∧
    get_current_season (.arr []) = [] ∧
    get_current_matches (.obj [("ID", .int 1)]) = [[("ID", .int 1)]] ∧
    get_rankings (.arr [.obj [], .int 5]) = [[]] ∧
    get_upcoming_matches (.obj [("ID", .int 1)]) = .obj [("ID", .int 1)] ∧
    get_upcoming_matches (.obj [("ID", .int 1)]) ≠ .arr [.obj [("ID", .int 1)]] ∧
    get_events_in_season (.arr [.obj [], .int 5]) = .arr [.obj [], .int 5] ∧
    get_matches_of_event (.obj [("ID", .int 1)]) ≠ .arr [.obj [("ID", .int 1)]] := by
  refine ⟨rfl, rfl, rfl, rfl, rfl, ?_, rfl, ?_⟩ <;> intro h <;> exact JValue.noConfusion h

/-- C3: `_extract_season` tries `Season`, `ID`, `CurrentSeason`, `SeasonID`
in that order and equals the spec-side description (first key present with
a non-empty, integer-parseable value wins); a payload with only
`SeasonID: "55"` yields 55; on failure the error names the payload's keys. -/
theorem c3_extract_season :
    (∀ payload, extract_season payload = extract_season_spec payload) ∧
    extract_season [("SeasonID", .str "55")] = .ok 55 ∧
    (∀ payload e, extract_season payload = .error e →
      e = .valueKeys (payload.map Prod.fst)) := by
  refine ⟨fun payload => extract_season_go_eq_spec payload _, rfl, ?_⟩
  intro payload e h
  exact extract_season_go_error payload _ e h

/-- Witness for C3 at a concrete payload with no usable season field. -/
theorem c3_extract_season_witness :
    PyErr.valueKeys ["X"] =
      .valueKeys ((([("X", .str "x")]) : JObj).map Prod.fst) :=
  c3_extract_season.2.2 [("X", .str "x")] (.valueKeys ["X"]) rfl

/-- Modelled from the spec (C5 reference): first present non-empty (truthy)
value among `Name`, `FullName`, `DisplayName` in that order; otherwise the
trimmed concatenation of trimmed `FirstName`, a space and trimmed
`LastName`; if that is empty, `"Player "` plus the raw `ID` field
(`"?"` when absent). -/
def player_name_spec (p : JObj) : String :=
  if truthy (getd p "Name") then pyStr (getd p "Name")
  else if truthy (getd p "FullName") then pyStr (getd p "FullName")
  else if truthy (getd p "DisplayName") then pyStr (getd p "DisplayName")
  else
    let fn := pyStrip (pyStr ((jget p "FirstName").getD (.str "")))
    let ln := pyStrip (pyStr ((jget p "LastName").getD (.str "")))
    let cat := pyStrip (fn ++ " " ++ ln)
    if cat = "" then "Player " ++ pyStr ((jget p "ID").getD (.str "?")) else cat

theorem player_name_first_key_cons (p : JObj) (k : String) (ks : List String) :
    player_name_first_key p (k :: ks) =
      if truthy (getd p k) then some (getd p k) else player_name_first_key p ks := by
  simp only [player_name_first_key, getd]
  cases hg : jget p k with
  | none => simp [Option.getD, truthy]
  | some v => simp [Option.getD]

/-- C5: `_player_name_from_payload` equals the spec's name-resolution rule on
every payload; the two concrete examples of the spec hold. -/
theorem c5_name_resolution :
    (∀ p, player_name_from_payload p = player_name_spec p) ∧
    player_name_from_payload
        [("FirstName", .str "Ronnie"), ("LastName", .str "O\x27Sullivan")] =
      "Ronnie O\x27Sullivan" ∧
    player_name_from_payload [("ID", .int 42)] = "Player 42" := by
  refine ⟨?_, rfl, rfl⟩
  intro p
  unfold player_name_from_payload player_name_spec
  rw [player_name_first_key_cons, player_name_first_key_cons, player_name_first_key_cons]
  by_cases h1 : truthy (getd p "Name") = true <;>
    simp [h1] <;>
    by_cases h2 : truthy (getd p "FullName") = true <;>
    simp [h2] <;>
    by_cases h3 : truthy (getd p "DisplayName") = true <;>
    simp [h3, player_name_first_key]

/-- C4: the monthly refresh runs iff due — due exactly when the stamp is
absent/falsy, unparseable, or at least 30 days (in elapsed seconds) old;
when not due the call returns the cache untouched without refreshing;
in particular a 29-day-old stamp skips and a 31-day-old or null stamp
proceeds. -/
theorem c4_monthly_refresh_due :
    (∀ now last, monthly_due now last = true ↔
        (last = none ∨ last = some none ∨
          ∃ t, last = some (some t) ∧ monthlyRefreshSeconds ≤ now - t)) ∧
    (∀ now cache sp rk f, monthly_due now cache.last_refreshed = false →
        maybe_refresh_player_cache_monthly now cache sp rk f = .ok (cache, false)) ∧
    (∀ now cache sp rk f c1 b,
        monthly_due now cache.last_refreshed = true →
        maybe_refresh_player_cache_monthly now cache sp rk f = .ok (c1, b) →
        b = true) ∧
    monthly_due (100 * 86400) (some (some (71 * 86400))) = false ∧
    monthly_due (100 * 86400) (some (some (69 * 86400))) = true ∧
    monthly_due (100 * 86400) none = true := by
  refine ⟨?_, ?_, ?_, by decide, by decide, rfl⟩
  · intro now last
    match last with
    | none => simp [monthly_due]
    | some none => simp [monthly_due]
    | some (some t) =>
        simp only [monthly_due, Bool.not_eq_true', decide_eq_false_iff_not, not_lt]
        constructor
        · intro h
          exact Or.inr (Or.inr ⟨t, rfl, h⟩)
        · rintro (h | h | ⟨t2, ht2, h⟩)
          · cases h
          · cases h
          · cases ht2; exact h
  · intro now cache sp rk f h
    simp [maybe_refresh_player_cache_monthly, h]
  · intro now cache sp rk f c1 b hdue hok
    simp only [maybe_refresh_player_cache_monthly, hdue, if_true] at hok
    split at hok
    · cases hok
    · split at hok
      · cases hok
      · split at hok
        · cases hok
        · cases hok; rfl

/-- Witness for C4: a 29-day-old stamp is skipped with the cache untouched,
and a never-refreshed cache runs the refresh. -/
theorem c4_monthly_refresh_due_witness :
    maybe_refresh_player_cache_monthly (100 * 86400)
        ⟨[], some (some (71 * 86400))⟩ [] [] (fun _ => .ok []) =
      .ok (⟨[], some (some (71 * 86400))⟩, false) ∧
    (true : Bool) = true :=
  ⟨c4_monthly_refresh_due.2.1 (100 * 86400) ⟨[], some (some (71 * 86400))⟩ [] []
      (fun _ => .ok []) (by decide),
   c4_monthly_refresh_due.2.2.1 0 ⟨[], none⟩ [("Season", .int 2024)] []
      (fun _ => .ok []) ⟨[], some (some 0)⟩ true rfl rfl⟩

/-- C2 counterexample: a truthy non-numeric `Score1` ("abc") raises inside
`int(m.get("Score1") or 0)` and fails the whole match-scores cycle. -/
theorem c2_score_parse_counterexample :
    ms_update [] [] [[("Score1", .str "abc")]] (fun _ => .ok []) true =
      ([], .error .badValue) ∧
    ms_row [] [] [("Score1", .str "abc")] = .error .badValue := ⟨rfl, rfl⟩

/-- C2 amended: the player/event ids are parsed defensively (`as_int` maps
missing or unparseable to null, never raising), and a missing or falsy
`ID`/`Score1`/`Score2`/`Status` parses to 0; but a truthy unparseable value
in one of those four fields raises and the row construction fails. -/
theorem c2_numeric_field_parsing :
    (∀ m : JObj, jget m "Score1" = none →
        pyInt (pyOr (getd m "Score1") (.int 0)) = some 0) ∧
    (∀ em cache m mid s1 s2 st,
        pyInt (pyOr (getd m "ID") (.int 0)) = some mid →
        pyInt (pyOr (getd m "Score1") (.int 0)) = some s1 →
        pyInt (pyOr (getd m "Score2") (.int 0)) = some s2 →
        pyInt (pyOr (getd m "Status") (.int 0)) = some st →
        ∃ row, ms_row em cache m = .ok row ∧
          jget row "MatchID" = some (.int mid) ∧
          jget row "Score1" = some (.int s1) ∧
          jget row "Score2" = some (.int s2) ∧
          jget row "Status" = some (.int st) ∧
          jget row "Player1ID" = some (jOfOptInt (as_int_ms (getd m "Player1ID"))) ∧
          jget row "Player2ID" = some (jOfOptInt (as_int_ms (getd m "Player2ID"))) ∧
          jget row "EventID" = some (jOfOptInt (as_int_ms (getd m "EventID")))) ∧
    (∀ em cache m,
        (pyInt (pyOr (getd m "ID") (.int 0)) = none ∨
         pyInt (pyOr (getd m "Score1") (.int 0)) = none ∨
         pyInt (pyOr (getd m "Score2") (.int 0)) = none ∨
         pyInt (pyOr (getd m "Status") (.int 0)) = none) →
        ms_row em cache m = .error .badValue) := by
  refine ⟨?_, ?_, ?_⟩
  · intro m h
    simp only [jget] at h
    simp [getd, jget, h, Option.getD, pyOr, truthy, pyInt]
  · intro em cache m mid s1 s2 st hm h1 h2 h3
    unfold ms_row
    rw [hm, h1, h2, h3]
    exact ⟨_, rfl, rfl, rfl, rfl, rfl, rfl, rfl, rfl⟩
  · intro em cache m hbad
    unfold ms_row
    rcases hm : pyInt (pyOr (getd m "ID") (.int 0)) with _ | mid <;>
      rcases h1 : pyInt (pyOr (getd m "Score1") (.int 0)) with _ | s1 <;>
      rcases h2 : pyInt (pyOr (getd m "Score2") (.int 0)) with _ | s2 <;>
      rcases h3 : pyInt (pyOr (getd m "Status") (.int 0)) with _ | s3 <;>
      first
        | rfl
        | (exfalso; rcases hbad with h | h | h | h <;> simp_all)

/-- Witness for C2: the empty raw match parses with every numeric field
defaulted (ids null, scores and status zero). -/
theorem c2_numeric_field_parsing_witness :
    pyInt (pyOr (getd [] "Score1") (.int 0)) = some 0 ∧
    (∃ row, ms_row [] [] [] = .ok row ∧
       jget row "MatchID" = some (.int 0) ∧
       jget row "Score1" = some (.int 0) ∧
       jget row "Score2" = some (.int 0) ∧
       jget row "Status" = some (.int 0) ∧
       jget row "Player1ID" = some (jOfOptInt (as_int_ms (getd [] "Player1ID"))) ∧
       jget row "Player2ID" = some (jOfOptInt (as_int_ms (getd [] "Player2ID"))) ∧
       jget row "EventID" = some (jOfOptInt (as_int_ms (getd [] "EventID")))) ∧
    ms_row [] [] [("Status", .arr [.int 1])] = .error .badValue :=
  ⟨c2_numeric_field_parsing.1 [] rfl,
   c2_numeric_field_parsing.2.1 [] [] [] 0 0 0 0 rfl rfl rfl rfl,
   c2_numeric_field_parsing.2.2 [] [] [("Status", .arr [.int 1])]
     (Or.inr (Or.inr (Or.inr rfl)))⟩

/-- C6 counterexample: a match row whose resolved player id is 0 (absent
from the empty cache) is decorated `"TBD"`, not `"#0"` as the claim states. -/
theorem c6_zero_id_counterexample :
    (∃ row, ms_row [] [] [("Player1ID", .int 0)] = .ok row ∧
        jget row "Player1Name" = some (.str "TBD")) ∧
    as_int_ms (getd [("Player1ID", .int 0)] "Player1ID") = some 0 ∧
    alGet ([] : List (Int × String)) 0 = none ∧
    "TBD" ≠ "#" ++ intToDecStr 0 :=
  ⟨⟨_, rfl, rfl⟩, rfl, rfl, by decide⟩

theorem decorate_go_forall2 (cache : List (Int × String)) :
    ∀ rows out, decorate_go cache rows = .ok out →
      List.Forall₂ (fun r r1 => ∃ pid,
        pyInt (pyOr ((jget r "PlayerID").getD ((jget r "ID").getD (.int 0))) (.int 0)) =
            some pid ∧
          r1 = alInsert r "PlayerName" (.str (rank_name cache pid))) rows out := by
  intro rows
  induction rows with
  | nil => intro out h; cases h; exact List.Forall₂.nil
  | cons r rs ih =>
      intro out h
      simp only [decorate_go] at h
      split at h
      · cases h
      · rename_i r1 h1
        split at h
        · cases h
        · rename_i rest hrest
          cases h
          refine List.Forall₂.cons ?_ (ih rest hrest)
          simp only [decorate_row] at h1
          split at h1
          · cases h1
          · rename_i pid hpid
            cases h1
            exact ⟨pid, hpid, rfl⟩

/-- C6 amended: ranking rows attach the cached value when it is non-empty
and the `#id` placeholder otherwise, over exactly the first 10 rows with
the cache passed through unmutated; match rows attach the cached value for
a nonzero resolved id, `#id` when that id is absent, and for a null or
zero id the `-1` lookup's `"TBD"` fallback. -/
theorem c6_name_decoration :
    (∀ cache pid s, alGet cache pid = some s → s ≠ "" → rank_name cache pid = s) ∧
    (∀ cache pid, alGet cache pid = none →
        rank_name cache pid = "#" ++ intToDecStr pid) ∧
    (∀ cache n s, n ≠ 0 → alGet cache n = some s → ms_name cache (some n) = s) ∧
    (∀ cache n, n ≠ 0 → alGet cache n = none →
        ms_name cache (some n) = "#" ++ intToDecStr n) ∧
    (∀ cache, ms_name cache (some 0) = (alGet cache (-1)).getD "TBD" ∧
        ms_name cache none = (alGet cache (-1)).getD "TBD") ∧
    (∀ em cache m row, ms_row em cache m = .ok row →
        jget row "Player1Name" =
            some (.str (ms_name cache (as_int_ms (getd m "Player1ID")))) ∧
          jget row "Player2Name" =
            some (.str (ms_name cache (as_int_ms (getd m "Player2ID"))))) ∧
    (∀ cache rows out, decorate cache rows = .ok out →
        List.Forall₂ (fun r r1 => ∃ pid,
          pyInt (pyOr ((jget r "PlayerID").getD ((jget r "ID").getD (.int 0))) (.int 0)) =
              some pid ∧
            r1 = alInsert r "PlayerName" (.str (rank_name cache pid)))
          (rows.take 10) out) ∧
    (∀ cache season money oy res, rankings_update cache season money oy = .ok res →
        res.1 = cache) := by
  refine ⟨?_, ?_, ?_, ?_, ?_, ?_, ?_, ?_⟩
  · intro cache pid s hs hne
    simp [rank_name, hs, hne]
  · intro cache pid hs
    simp [rank_name, hs]
  · intro cache n s hn hs
    simp [ms_name, keyOrNeg1, hn, hs]
  · intro cache n hn hs
    simp [ms_name, keyOrNeg1, hn, hs]
  · intro cache
    constructor <;> simp [ms_name, keyOrNeg1]
  · intro em cache m row h
    unfold ms_row at h
    split at h
    · cases h; exact ⟨rfl, rfl⟩
    · cases h
  · intro cache rows out h
    exact decorate_go_forall2 cache (rows.take 10) out h
  · intro cache season money oy res h
    unfold rankings_update at h
    split at h
    · cases h
    · split at h
      · cases h
      · cases h; rfl

/-- Witness for C6 at concrete caches and rows. -/
theorem c6_name_decoration_witness :
    rank_name [(5, "Alice")] 5 = "Alice" ∧
    rank_name [] 9 = "#" ++ intToDecStr 9 ∧
    ms_name [(5, "Alice")] (some 5) = "Alice" ∧
    ms_name [] (some 7) = "#" ++ intToDecStr 7 :=
  ⟨c6_name_decoration.1 [(5, "Alice")] 5 "Alice" rfl (by decide),
   c6_name_decoration.2.1 [] 9 rfl,
   c6_name_decoration.2.2.1 [(5, "Alice")] 5 "Alice" (by decide) rfl,
   c6_name_decoration.2.2.2.1 [] 7 (by decide) rfl⟩

/-- C9: a raw upcoming match is kept iff one of its schedule-date candidates
is truthy; the published list is a permutation of the kept normalized
matches, sorted ascending by the schedule-date string, and the published
count is its length; the spec's three-date example orders as stated. -/
theorem c9_upcoming_drop_sort :
    (∀ m, (up_normalize_one m).isSome = true ↔
        truthy (pyOr (getd m "ScheduledDate")
          (pyOr (getd m "StartDate") (getd m "Date"))) = true) ∧
    (∀ cache tourMatches fetcher,
        ((upcoming_update cache tourMatches fetcher).2.match_list).Perm
            ((up_all_matches tourMatches).filterMap up_normalize_one) ∧
          List.Sorted upLe ((upcoming_update cache tourMatches fetcher).2.match_list) ∧
          (upcoming_update cache tourMatches fetcher).2.count =
            ((upcoming_update cache tourMatches fetcher).2.match_list).length) ∧
    (((upcoming_update [] [("main",
        [[("ScheduledDate", .str "2024-05-02")],
         [("ScheduledDate", .str "2024-05-01T10:00")],
         [("ScheduledDate", .str "2024-05-01T09:00")]])]
        (fun _ => .error .badValue)).2.match_list).map up_sort_key =
      ["2024-05-01T09:00", "2024-05-01T10:00", "2024-05-02"]) := by
  refine ⟨?_, ?_, by decide⟩
  · intro m
    unfold up_normalize_one
    by_cases h : truthy (pyOr (getd m "ScheduledDate")
        (pyOr (getd m "StartDate") (getd m "Date"))) = true <;>
      simp [h]
  · intro cache tourMatches fetcher
    exact ⟨List.perm_insertionSort upLe _, List.sorted_insertionSort upLe _, rfl⟩

/-- Witness for C9: a dated match is kept. -/
theorem c9_upcoming_drop_sort_witness :
    (up_normalize_one [("ScheduledDate", .str "2024-05-02")]).isSome = true :=
  (c9_upcoming_drop_sort.1 [("ScheduledDate", .str "2024-05-02")]).mpr rfl

/-- C8: a failing incremental backfill is caught locally — the upcoming
poller still publishes its sorted list with the cache untouched; the
match-scores poller still publishes the first-pass rows; and in those rows
a missing (nonzero) id is rendered as the `#id` placeholder. -/
theorem c8_backfill_failure_caught :
    (∀ cache tms f e,
        paced_player_fetch f
            (up_missing_ids cache ((up_all_matches tms).filterMap up_normalize_one)) =
          .error e →
        upcoming_update cache tms f =
          (cache,
            { count := (up_sort ((up_all_matches tms).filterMap up_normalize_one)).length,
              match_list := up_sort ((up_all_matches tms).filterMap up_normalize_one) })) ∧
    (∀ cache em raws f saveOk rows e,
        ms_rows_go em cache raws = .ok rows →
        paced_player_fetch f (ms_missing_ids cache raws) = .error e →
        ms_update cache em raws f saveOk =
          (cache, .ok { count := (ms_sort rows).length, match_list := ms_sort rows })) ∧
    (∀ em cache m row n,
        ms_row em cache m = .ok row →
        as_int_ms (getd m "Player1ID") = some n → n ≠ 0 → alGet cache n = none →
        jget row "Player1Name" = some (.str ("#" ++ intToDecStr n))) := by
  refine ⟨?_, ?_, ?_⟩
  · intro cache tms f e h
    by_cases hm : (up_missing_ids cache
        ((up_all_matches tms).filterMap up_normalize_one)).isEmpty = true
    · simp [upcoming_update, hm]
    · simp [upcoming_update, hm, h]
  · intro cache em raws f saveOk rows e hrows h
    unfold ms_update
    rw [hrows]
    by_cases hm : (ms_missing_ids cache raws).isEmpty = true
    · simp [hm]
    · simp [hm, h]
  · intro em cache m row n h hn hzero hnone
    have hname : ms_name cache (as_int_ms (getd m "Player1ID")) =
        "#" ++ intToDecStr n := by
      rw [hn]
      simp [ms_name, keyOrNeg1, hzero, hnone]
    unfold ms_row at h
    split at h
    · cases h
      simp [jget, alGet, hname]
    · cases h

/-- Witness for C8 at concrete failing backfills. -/
theorem c8_backfill_failure_caught_witness :
    upcoming_update [] [("main", [[("ScheduledDate", .str "d"), ("Player1ID", .int 7)]])]
        (fun _ => .error .badValue) =
      ([],
        { count := (up_sort ((up_all_matches
              [("main", [[("ScheduledDate", .str "d"), ("Player1ID", .int 7)]])]).filterMap
              up_normalize_one)).length,
          match_list := up_sort ((up_all_matches
              [("main", [[("ScheduledDate", .str "d"), ("Player1ID", .int 7)]])]).filterMap
              up_normalize_one) }) ∧
    (∀ rows, ms_rows_go [] [] [[("Player1ID", .int 7)]] = .ok rows →
        ms_update [] [] [[("Player1ID", .int 7)]] (fun _ => .error .badValue) true =
          ([], .ok { count := (ms_sort rows).length, match_list := ms_sort rows })) :=
  ⟨c8_backfill_failure_caught.1 [] _ (fun _ => .error .badValue) .badValue rfl,
   fun rows hrows => c8_backfill_failure_caught.2.1 [] [] _ (fun _ => .error .badValue)
     true rows .badValue hrows rfl⟩

theorem cacheInv_nil : cacheInv [] := fun kv hkv => absurd hkv (List.not_mem_nil kv)

theorem upcoming_update_fst (cache : List (Int × String))
    (tms : List (String × List JObj)) (f : Int → Except PyErr JObj) :
    (upcoming_update cache tms f).1 =
      if (up_missing_ids cache
          ((up_all_matches tms).filterMap up_normalize_one)).isEmpty then cache
      else
        match paced_player_fetch f
            (up_missing_ids cache ((up_all_matches tms).filterMap up_normalize_one)) with
        | .ok fetched => apply_players cache fetched
        | .error _ => cache := rfl

theorem ms_update_fst (cache : List (Int × String)) (em : List (Int × JObj))
    (raws : List JObj) (f : Int → Except PyErr JObj) (saveOk : Bool) :
    (ms_update cache em raws f saveOk).1 =
      match ms_rows_go em cache raws with
      | .error _ => cache
      | .ok _ =>
          if (ms_missing_ids cache raws).isEmpty then cache
          else
            match paced_player_fetch f (ms_missing_ids cache raws) with
            | .error _ => cache
            | .ok fetched => apply_players cache fetched := by
  unfold ms_update
  cases ms_rows_go em cache raws with
  | error e => rfl
  | ok rows =>
      by_cases hm : (ms_missing_ids cache raws).isEmpty = true
      · simp [hm]
      · simp only [hm, Bool.false_eq_true, if_false]
        cases paced_player_fetch f (ms_missing_ids cache raws) with
        | error e => rfl
        | ok fetched => cases saveOk <;> rfl

/-- C7 counterexample: an upcoming raw match carrying `Player1ID: "0"`
backfills the cache under key 0, so a cache operation produces a
non-positive key from an initially invariant-satisfying (empty) cache. -/
theorem c7_zero_key_counterexample :
    (upcoming_update [] [("main", [[("ScheduledDate", .str "d"), ("Player1ID", .str "0")]])]
        (fun _ => .ok [])).1 = [(0, "Player ?")] ∧
    ¬ cacheInv (upcoming_update []
        [("main", [[("ScheduledDate", .str "d"), ("Player1ID", .str "0")]])]
        (fun _ => .ok [])).1 ∧
    cacheInv [] := by
  refine ⟨rfl, ?_, cacheInv_nil⟩
  intro h
  have h0 := h (0, "Player ?")
    (by
      rw [show (upcoming_update []
          [("main", [[("ScheduledDate", .str "d"), ("Player1ID", .str "0")]])]
          (fun _ => .ok [])).1 = [(0, "Player ?")] from rfl]
      exact List.mem_singleton.mpr rfl)
  exact absurd h0.1 (by decide)

theorem load_players_go_inv :
    ∀ kvs (acc m : List (Int × String)), load_players_go acc kvs = .ok m →
      cacheInv acc →
      (∀ kv ∈ kvs, (∀ n, parseIntStr kv.1 = some n → 0 < n) ∧ pyStr kv.2 ≠ "") →
      cacheInv m := by
  intro kvs
  induction kvs with
  | nil => intro acc m h hacc _; cases h; exact hacc
  | cons kv rest ih =>
      intro acc m h hacc hkv
      simp only [load_players_go] at h
      split at h
      · cases h
      · rename_i n hn
        exact ih _ m h
          (cacheInv_alInsert _ _ _ hacc ((hkv kv (by simp)).1 n hn)
            (hkv kv (by simp)).2)
          (fun q hq => hkv q (List.mem_cons_of_mem _ hq))

/-- C7 amended: the invariant (positive keys, non-empty names) is preserved
by every cache operation provided the incoming ids are positive — for
`load_player_cache` when the stored keys parse to positive ints and the
stored values stringify non-empty, for the monthly refresh when the
top-100 ranking ids are positive, and for both pollers' incremental
backfills when the discovered missing ids are positive.  Name non-emptiness
needs no proviso: `_player_name_from_payload` never returns an empty
string. -/
theorem c7_cache_invariant :
    (∀ p : JObj, player_name_from_payload p ≠ "") ∧
    (∀ data m, load_player_cache data = .ok m →
        (∀ kvs, (jget data "players").getD (.obj []) = .obj kvs →
          ∀ kv ∈ kvs, (∀ n, parseIntStr kv.1 = some n → 0 < n) ∧ pyStr kv.2 ≠ "") →
        cacheInv m) ∧
    (∀ now cache sp rk f c1 b,
        cacheInv cache.players →
        (∀ ids, top100_ids rk = .ok ids → ∀ i ∈ ids, 0 < i) →
        maybe_refresh_player_cache_monthly now cache sp rk f = .ok (c1, b) →
        cacheInv c1.players) ∧
    (∀ cache tms f,
        cacheInv cache →
        (∀ i ∈ up_missing_ids cache ((up_all_matches tms).filterMap up_normalize_one),
          0 < i) →
        cacheInv (upcoming_update cache tms f).1) ∧
    (∀ cache em raws f saveOk,
        cacheInv cache →
        (∀ i ∈ ms_missing_ids cache raws, 0 < i) →
        cacheInv (ms_update cache em raws f saveOk).1) := by
  refine ⟨player_name_from_payload_ne_empty, ?_, ?_, ?_, ?_⟩
  · intro data m h hdata
    unfold load_player_cache at h
    split at h
    · rename_i kvs hkvs
      exact load_players_go_inv kvs [] m h cacheInv_nil (hdata kvs hkvs)
    · cases h
  · intro now cache sp rk f c1 b hc htop h
    unfold maybe_refresh_player_cache_monthly at h
    split at h
    · split at h
      · cases h
      · split at h
        · cases h
        · rename_i ids hids
          split at h
          · cases h
          · rename_i fetched hfetched
            cases h
            refine apply_players_inv fetched cache.players hc ?_
            intro pv hpv
            have hk := paced_player_fetch_keys f ids fetched hfetched
            refine htop ids hids pv.1 ?_
            rw [← hk]
            exact List.mem_map_of_mem Prod.fst hpv
    · cases h; exact hc
  · intro cache tms f hc hpos
    rw [upcoming_update_fst]
    by_cases hm : (up_missing_ids cache
        ((up_all_matches tms).filterMap up_normalize_one)).isEmpty = true
    · simpa [hm] using hc
    · simp only [hm, Bool.false_eq_true, if_false]
      cases hp : paced_player_fetch f
          (up_missing_ids cache ((up_all_matches tms).filterMap up_normalize_one)) with
      | error e => exact hc
      | ok fetched =>
          refine apply_players_inv fetched cache hc ?_
          intro pv hpv
          have hk := paced_player_fetch_keys f _ fetched hp
          refine hpos pv.1 ?_
          rw [← hk]
          exact List.mem_map_of_mem Prod.fst hpv
  · intro cache em raws f saveOk hc hpos
    rw [ms_update_fst]
    cases ms_rows_go em cache raws with
    | error e => exact hc
    | ok rows =>
        by_cases hm : (ms_missing_ids cache raws).isEmpty = true
        · simpa [hm] using hc
        · simp only [hm, Bool.false_eq_true, if_false]
          cases hp : paced_player_fetch f (ms_missing_ids cache raws) with
          | error e => exact hc
          | ok fetched =>
              refine apply_players_inv fetched cache hc ?_
              intro pv hpv
              have hk := paced_player_fetch_keys f _ fetched hp
              refine hpos pv.1 ?_
              rw [← hk]
              exact List.mem_map_of_mem Prod.fst hpv

/-- Witness for C7: a concrete backfill of player 3 preserves the invariant. -/
theorem c7_cache_invariant_witness :
    cacheInv (upcoming_update []
        [("main", [[("ScheduledDate", .str "d"), ("Player1ID", .int 3)]])]
        (fun _ => .ok [("Name", .str "Ace")])).1 :=
  c7_cache_invariant.2.2.2.1 [] [("main", [[("ScheduledDate", .str "d"), ("Player1ID", .int 3)]])]
    (fun _ => .ok [("Name", .str "Ace")]) cacheInv_nil (by decide)

theorem events_foldl_filter :
    ∀ (raws : List JObj) (m : List (Int × JObj)),
      raws.foldl events_by_id_step m =
        (raws.filter (fun r => (event_id_of r).isSome)).foldl events_by_id_step m := by
  intro raws
  induction raws with
  | nil => intro m; rfl
  | cons r rs ih =>
      intro m
      simp only [List.foldl_cons, List.filter_cons]
      cases he : event_id_of r with
      | none =>
          simp only [Option.isSome_none, Bool.false_eq_true, if_false]
          rw [show events_by_id_step m r = m by simp [events_by_id_step, he]]
          exact ih m
      | some i =>
          simp only [Option.isSome_some, if_true, List.foldl_cons]
          exact ih _

theorem events_foldl_lookup (m : List (Int × JObj)) (i : Int) :
    ∀ raws : List JObj,
      alGet (raws.foldl events_by_id_step m) i =
        match (raws.filter (fun r => event_id_of r == some i)).getLast? with
        | some r => some (normalize_event r i)
        | none => alGet m i := by
  intro raws
  induction raws using List.reverseRecOn with
  | nil => rfl
  | append_singleton l r ih =>
      rw [List.foldl_append, List.filter_append]
      simp only [List.foldl_cons, List.foldl_nil, List.filter_cons, List.filter_nil]
      cases he : event_id_of r with
      | none =>
          rw [show ((none : Option Int) == some i) = false from rfl]
          simp only [Bool.false_eq_true, if_false, List.append_nil]
          rw [show events_by_id_step (l.foldl events_by_id_step m) r =
              l.foldl events_by_id_step m by simp [events_by_id_step, he]]
          exact ih
      | some j =>
          by_cases hj : j = i
          · subst hj
            rw [show ((some j : Option Int) == some j) = true by simp]
            simp only [if_true, List.getLast?_concat]
            rw [show events_by_id_step (l.foldl events_by_id_step m) r =
                alInsert (l.foldl events_by_id_step m) j (normalize_event r j) by
                  simp [events_by_id_step, he]]
            exact alGet_alInsert_self _ _ _
          · rw [show ((some j : Option Int) == some i) = false by simp [hj]]
            simp only [Bool.false_eq_true, if_false, List.append_nil]
            rw [show events_by_id_step (l.foldl events_by_id_step m) r =
                alInsert (l.foldl events_by_id_step m) j (normalize_event r j) by
                  simp [events_by_id_step, he]]
            rw [alGet_alInsert_ne _ _ _ _ hj]
            exact ih

/-- C10: the events poller ignores raw events without a parseable id (the
fold over the id-filtered list is the same map); the map's entry for each
id is the normalization of the last raw event resolving to that id; the
published list is the map's values sorted ascending by id with the count
equal to its length; and the duplicate-`ID: 7` example yields one entry
carrying the second payload's `Name`. -/
theorem c10_events_dedup_sort :
    (∀ raws, events_by_id_of raws =
        events_by_id_of (raws.filter (fun r => (event_id_of r).isSome))) ∧
    (∀ raws i, alGet (events_by_id_of raws) i =
        match (raws.filter (fun r => event_id_of r == some i)).getLast? with
        | some r => some (normalize_event r i)
        | none => none) ∧
    (∀ raws season,
        ((events_update season raws).2.2.1).Perm
            ((events_by_id_of raws).map Prod.snd) ∧
          List.Sorted evLe ((events_update season raws).2.2.1) ∧
          (events_update season raws).2.1 = ((events_update season raws).2.2.1).length) ∧
    ((events_update 5 [[("ID", .int 7), ("Name", .str "A")],
                       [("ID", .int 7), ("Name", .str "B")]]).2.2.2 =
        [(7, normalize_event [("ID", .int 7), ("Name", .str "B")] 7)] ∧
      jget (normalize_event [("ID", .int 7), ("Name", .str "B")] 7) "Name" =
        some (.str "B") ∧
      ((events_update 5 [[("ID", .int 7), ("Name", .str "A")],
                         [("ID", .int 7), ("Name", .str "B")]]).2.2.1).length = 1) := by
  refine ⟨?_, ?_, ?_, rfl, rfl, rfl⟩
  · intro raws
    exact events_foldl_filter raws []
  · intro raws i
    exact events_foldl_lookup [] i raws
  · intro raws season
    exact ⟨List.perm_insertionSort evLe _, List.sorted_insertionSort evLe _, rfl⟩
